import Mathlib

/-!
Verification development for the abbyy-to-epub3 streaming parser and
block-flattening pipeline.  The Python sources (`parse_abbyy.py`,
`create_epub.py`, `utils.py`, `constants.py`) are shallowly embedded:
Python dicts become association lists, shared mutable state becomes
explicit state records, and raised exceptions become explicit `PyErr`
results paired with the state visible at the raise site.
-/

namespace AbbyyToEpub3

/-- Python exceptions observed by the embedded fragment. -/
inductive PyErr where
  | attributeError
  | runtimeError
  | keyError
  | nameError
  | typeError
  | valueError
  | indexError
deriving DecidableEq, Repr

/-- Attribute sets (`dict(elem.attrib)`): string-keyed, string-valued. -/
abbrev Attrs := List (String × String)

/-- `d[k] = v` on a Python dict: replace in place if the key exists
(keeping its position, as Python dicts do), else append. -/
def dictInsert [BEq κ] (d : List (κ × α)) (k : κ) (v : α) : List (κ × α) :=
  if d.any (fun kv => kv.1 == k) then
    d.map (fun kv => if kv.1 == k then (k, v) else kv)
  else d ++ [(k, v)]

/-- `d.get(k)` / guarded `d[k]` on a Python dict. -/
def dictLookup [BEq κ] (d : List (κ × α)) (k : κ) : Option α :=
  (d.find? (fun kv => kv.1 == k)).map Prod.snd

/-- `k in d` on a Python dict. -/
def containsKey [BEq κ] (d : List (κ × α)) (k : κ) : Bool :=
  d.any (fun kv => kv.1 == k)

/-- Decimal digit accumulator for `int()`. -/
def parseNatDigitsAux : List Char → Nat → Option Nat
  | [], acc => some acc
  | c :: cs, acc =>
      if c.isDigit then parseNatDigitsAux cs (acc * 10 + (c.toNat - 48))
      else none

/-- All-digit, non-empty decimal parse; `none` models `ValueError`. -/
def parseNatDigits : List Char → Option Nat
  | [] => none
  | c :: cs => parseNatDigitsAux (c :: cs) 0

/-- `int(s)` on a clean decimal string (optional leading minus). -/
def pyInt (s : String) : Except PyErr Int :=
  match s.data with
  | [] => .error .valueError
  | c :: cs =>
      if c = '-' then
        match parseNatDigits cs with
        | some n => .ok (-(n : Int))
        | none => .error .valueError
      else
        match parseNatDigits (c :: cs) with
        | some n => .ok ((n : Int))
        | none => .error .valueError

/-- `str.strip()`: drop leading and trailing whitespace. -/
def pyStrip (s : String) : String :=
  ⟨(((s.data.dropWhile Char.isWhitespace).reverse).dropWhile
      Char.isWhitespace).reverse⟩

/-- One character of `utils.sanitize_xml`.  The Python function applies five
sequential `str.replace` calls (`&`, `<`, `>`, `"`, `\x27`); since no
replacement string contains a character replaced by a later pass, the
sequential chain equals this single character-wise expansion. -/
def sanitizeChar (c : Char) : List Char :=
  if c = '&' then "&amp;".data
  else if c = '<' then "&lt;".data
  else if c = '>' then "&gt;".data
  else if c = '"' then "&quot;".data
  else if c = '\x27' then "&apos;".data
  else [c]

/-- `utils.sanitize_xml`: escape forbidden XML entities. -/
def sanitize_xml (s : String) : String :=
  ⟨s.data.foldr (fun c acc => sanitizeChar c ++ acc) []⟩

/-- `text.replace('¬\n', '')` from `parse_block`: left-to-right,
non-overlapping removal of the EOL-hyphen pair. -/
def stripEolHyphens : List Char → List Char
  | '¬' :: '\n' :: rest => stripEolHyphens rest
  | c :: rest => c :: stripEolHyphens rest
  | [] => []

/-- A paragraph style record: the attribute dict of a `paragraphStyle`
element, with the optional `fontstyle` key (whose value is itself a dict)
modelled as a separate optional field. -/
structure StyleRecord where
  attrs : Attrs := []
  fontstyle : Option Attrs := none
deriving DecidableEq, Repr

/-- The collected paragraph-style table (`self.paragraphs`). -/
abbrev Paragraphs := List (String × StyleRecord)

/-- The collected font-style table (`self.fontStyles`). -/
abbrev FontStyles := List (String × Attrs)

/-- A `fontStyle` child element of a `paragraphStyle`. -/
structure FontStyleElem where
  id : String
  attrib : Attrs
deriving DecidableEq, Repr

/-- A `paragraphStyle` element with its `fontStyle` children. -/
structure ParagraphStyleElem where
  id : String
  attrib : Attrs
  children : List FontStyleElem
deriving DecidableEq, Repr

/-- A `<par>` element: its `style` attribute and the text `gettext`
extracts from it (before stripping). -/
structure Par where
  styleId : String
  text : String
deriving DecidableEq, Repr

/-- A table `<cell>`: `cell.find("a:text")` yields either the `<par>`
descendants of the cell's text element or `None` (modelled `none`). -/
structure TCell where
  textElem : Option (List Par)
deriving DecidableEq, Repr

/-- A table `<row>` with its cells. -/
structure TRow where
  cells : List TCell
deriving DecidableEq, Repr

/-- A `<block>` element: its attribute dict (including `blockType`), its
`<par>` descendants (relevant when `blockType="Text"`), and its `<row>`
descendants (relevant when `blockType="Table"`). -/
structure RawBlock where
  attrib : Attrs
  pars : List Par
  rows : List TRow
deriving DecidableEq, Repr

/-- A flattened content-block dict appended to `self.blocks`.  Optional
fields model optional dict keys; `first`/`last`/`lastTableElem` model the
presence of the `'first'`/`'last'`/`'last_table_elem'` keys.  The `'text'`
key holds a string for text-like blocks (`textS`) and the integer page
number for `'Page'` markers (`textN`); the `'style'` key holds a paragraph
style record for Text blocks (`stylePara`) and the raw block attribute
dict otherwise (`styleAttrs`). -/
structure Block where
  btype : Option String := none
  page_no : Option Nat := none
  textS : Option String := none
  textN : Option Nat := none
  role : Option String := none
  stylePara : Option StyleRecord := none
  styleAttrs : Option Attrs := none
  first : Bool := false
  last : Bool := false
  lastTableElem : Bool := false
  heading : Option String := none
deriving DecidableEq, Repr

instance : Inhabited Block := ⟨{}⟩

/-- The runtime value stored under `metadata['pics_by_page']`.  It is
initialised to an empty dict by `parse_abbyy`, but `parse_block`'s picture
branch reassigns it to a bare list, so at runtime it is one of the two. -/
inductive PicsVal where
  | dict : List (Nat × List Block) → PicsVal
  | list : List Block → PicsVal
deriving DecidableEq, Repr

/-- `self.page_no in self.metadata['pics_by_page']`: membership in a dict
checks its keys; membership of an `int` in a list of block dicts compares
the int against each dict and is always false. -/
def picsContains (p : PicsVal) (n : Nat) : Bool :=
  match p with
  | .dict m => m.any (fun kv => kv.1 == n)
  | .list _ => false

/-- The picture-index update of `parse_block` (source lines 517–521):
`if page_no in pics: pics.append(d) else: metadata['pics_by_page'] = [d]`.
A dict has no `append` (AttributeError); the else branch replaces the
whole metadata entry with a fresh one-element list. -/
def picsUpdate (p : PicsVal) (n : Nat) (d : Block) : Option PyErr × PicsVal :=
  if picsContains p n then
    match p with
    | .dict _ => (some .attributeError, p)
    | .list l => (none, .list (l ++ [d]))
  else (none, .list [d])

/-- All picture blocks reachable anywhere inside the pics index. -/
def picsAllBlocks (p : PicsVal) : List Block :=
  match p with
  | .dict m => (m.map Prod.snd).flatten
  | .list l => l

/-- A `<page>` element: width/height attributes and child blocks. -/
structure Page where
  width : String
  height : String
  blocks : List RawBlock
deriving DecidableEq, Repr

/-- The document as seen by `parse_abbyy`: the namespace URIs declared on
the first element, the style-definition elements, and the pages. -/
structure AbbyyDoc where
  nsvals : List String
  styleElems : List ParagraphStyleElem
  pages : List Page
deriving DecidableEq, Repr

/-- The mutable state of an `AbbyyParser` instance (the fields the
embedded fragment touches).  `version` is the class attribute that starts
as the empty string; `pagesSupport` is `metadata['PAGES_SUPPORT']`. -/
structure ParserState where
  version : String := ""
  paragraphs : Paragraphs := []
  fontStyles : FontStyles := []
  blocks : List Block := []
  picsByPage : PicsVal := .dict []
  page_no : Nat := 0
  newpage : Bool := false
  pagewidth : String := ""
  pageheight : String := ""
  pagesSupport : Bool := true
deriving DecidableEq, Repr

/-- `constants.ABBYY_NS`. -/
def ABBYY_NS : String :=
  "http://www.abbyy.com/FineReader_xml/FineReader10-schema-v1.xml"

/-- `constants.OLD_NS`. -/
def OLD_NS : String :=
  "http://www.abbyy.com/FineReader_xml/FineReader6-schema-v1.xml"

/-- `AbbyyParser.find_namespace`: inspect the first element's namespace
map and select the schema dialect, raising `RuntimeError` for an
unsupported schema. -/
def find_namespace (nsvals : List String) : Except PyErr (String × String) :=
  if ABBYY_NS ∈ nsvals then .ok (ABBYY_NS, "FR10")
  else if OLD_NS ∈ nsvals then .ok (OLD_NS, "FR6")
  else .error .runtimeError

/-- The method names defined in the body of `class AbbyyParser`
(`parse_abbyy.py`): attribute lookup on an instance resolves exactly
these (plus instance attributes, none of which is named
`process_styles`). -/
def abbyyParserMethods : List String :=
  ["__init__", "is_block_type", "find_namespace", "parse_metadata",
   "parse_abbyy", "decompose_xml", "process_pages", "parse_block"]

/-- `AbbyyParser.parse_abbyy`: initialise `pics_by_page`, `fontStyles`
and `pages`, detect the namespace, then start the first end-event pass
with `fast_iter(context, self.process_styles)`.  Evaluating
`self.process_styles` is an attribute lookup that precedes any iteration;
the result is the error (if any) paired with the state visible at that
point. -/
def parse_abbyy (doc : AbbyyDoc) (st : ParserState) :
    Option PyErr × ParserState :=
  let st := { st with picsByPage := PicsVal.dict [], fontStyles := [] }
  match find_namespace doc.nsvals with
  | .error e => (some e, st)
  | .ok (_, ver) =>
      let st := { st with version := ver }
      if h : "process_styles" ∈ abbyyParserMethods then
        -- `fast_iter` would drive the style pass through the bound method
        -- here, but the class body defines no method of this name.
        absurd h (by decide)
      else (some PyErr.attributeError, st)

/-- `AbbyyParser.decompose_xml`: record a `paragraphStyle` element's
attribute dict and collect its `fontStyle` children. -/
def decompose_xml (e : ParagraphStyleElem) (st : ParserState) : ParserState :=
  let st := { st with
    paragraphs := dictInsert st.paragraphs e.id ⟨e.attrib, none⟩ }
  { st with
    fontStyles :=
      e.children.foldl (fun fs c => dictInsert fs c.id c.attrib)
        st.fontStyles }

/-- The style-collation loop of `parse_abbyy` (source lines 254–261):
`if 'mainFontStyleId' in attribs and 'mainFontStyleId' in self.fontStyles:
self.paragraphs[id]['fontstyle'] = self.fontStyles['mainFontStyleId']`.
Note both fontStyle tests use the literal string as the key. -/
def collate_styles (st : ParserState) : ParserState :=
  { st with
    paragraphs := st.paragraphs.map (fun kv =>
      if containsKey kv.2.attrs "mainFontStyleId" &&
          containsKey st.fontStyles "mainFontStyleId" then
        (kv.1, { kv.2 with
          fontstyle := dictLookup st.fontStyles "mainFontStyleId" })
      else kv) }

/-- The body of `add_last_text`'s `while` loop, walking the block list
from its end (the caller reverses).  `'page_no' not in elem` stops the
scan; a block of the current page is marked and the scan stopped only
when its `'type'` equals the lowercase string `'text'`; otherwise the
view is truncated and the loop continues. -/
def addLastTextRev (page : Nat) : List Block → List Block
  | [] => []
  | b :: rest =>
      if b.page_no.isNone then b :: rest
      else if b.page_no == some page && b.btype == some "text" then
        { b with last := true } :: rest
      else b :: addLastTextRev page rest

/-- `parse_abbyy.add_last_text`: mark up the last text block for the given
page, scanning the shared block list backward. -/
def add_last_text (blocks : List Block) (page : Nat) : List Block :=
  (addLastTextRev page blocks.reverse).reverse

/-- `AbbyyParser.is_block_type`. -/
def is_block_type (blockattr : Attrs) (blocktype : String) : Bool :=
  match dictLookup blockattr "blockType" with
  | some v => v == blocktype
  | none => false

/-- `self.paragraphs[para_id]` at a call site where the key is known to be
present (it was inserted just above in `parse_block`). -/
def lookupStyle (ps : Paragraphs) (k : String) : StyleRecord :=
  (dictLookup ps k).getD ⟨[], none⟩

/-- One `<par>` of the Text branch of `parse_block` (source lines
380–430): substitute an empty style for an unresolved style id, skip
whitespace-only text, look up the role (`['role']`, a KeyError when the
record has none, in FR10), skip running headers/footers (`'rt'`), append
the Text content block, flag the first block of a new page, and for
headings look up `['roleLevel']` (again a possible KeyError). -/
def parsePar (version : String) (page_no : Nat) (p : Par)
    (st : ParserState) : Option PyErr × ParserState :=
  let st :=
    if containsKey st.paragraphs p.styleId then st
    else { st with
      paragraphs := dictInsert st.paragraphs p.styleId ⟨[], none⟩ }
  let text := pyStrip p.text
  if text = "" then (none, st)
  else
    let roleRes : Except PyErr String :=
      if version == "FR10" then
        match dictLookup (lookupStyle st.paragraphs p.styleId).attrs
            "role" with
        | some r => .ok r
        | none => .error .keyError
      else .ok "FR6"
    match roleRes with
    | .error e => (some e, st)
    | .ok role =>
        if role == "rt" then (none, st)
        else
          let b : Block :=
            { btype := some "Text", page_no := some page_no,
              textS := some ⟨stripEolHyphens (sanitize_xml text).data⟩,
              role := some role,
              stylePara := some (lookupStyle st.paragraphs p.styleId),
              first := st.newpage }
          let st := { st with blocks := st.blocks ++ [b],
                              newpage := false }
          if role == "heading" then
            match dictLookup (lookupStyle st.paragraphs p.styleId).attrs
                "roleLevel" with
            | none => (some .keyError, st)
            | some lvl =>
                (none, { st with
                  blocks := st.blocks.dropLast ++
                    [{ b with heading := some lvl }] })
          else (none, st)

/-- The paragraph loop of the Text branch. -/
def parsePars (version : String) (page_no : Nat) :
    List Par → ParserState → Option PyErr × ParserState
  | [], st => (none, st)
  | p :: rest, st =>
      match parsePar version page_no p st with
      | (some e, st') => (some e, st')
      | (none, st') => parsePars version page_no rest st'

/-- The innermost loop of the Table branch (source lines 481–499):
non-empty (or sole) paragraphs of a cell become `TableText` blocks, the
structurally last appended one is flagged, and `newpage` is cleared on
append (no `'first'` flag is set here). -/
def parseTablePars (blockattr : Attrs) (page_no : Nat)
    (parasInCell : Nat) :
    List Par → Nat → ParserState → ParserState
  | [], _, st => st
  | p :: rest, thisContents, st =>
      let text := pyStrip p.text
      if text = "" && decide (parasInCell > 1) then
        parseTablePars blockattr page_no parasInCell rest thisContents st
      else
        let b : Block :=
          { btype := some "TableText", styleAttrs := some blockattr,
            page_no := some page_no, textS := some (sanitize_xml text),
            lastTableElem := thisContents == parasInCell }
        parseTablePars blockattr page_no parasInCell rest
          (thisContents + 1)
          { st with blocks := st.blocks ++ [b], newpage := false }

/-- The cell loop of the Table branch (source lines 464–503): each cell
emits a `TableCell` (last one per row flagged), then
`cell.find("a:text")` — `None` makes the following `iterdescendants`
raise AttributeError — and the paragraph loop. -/
def parseTableCells (blockattr : Attrs) (page_no : Nat)
    (cellsInRow : Nat) :
    List TCell → Nat → ParserState → Option PyErr × ParserState
  | [], _, st => (none, st)
  | c :: rest, thisCell, st =>
      let b : Block :=
        { btype := some "TableCell", styleAttrs := some blockattr,
          page_no := some page_no,
          lastTableElem := thisCell == cellsInRow }
      let st := { st with blocks := st.blocks ++ [b] }
      match c.textElem with
      | none => (some .attributeError, st)
      | some pars =>
          let st := parseTablePars blockattr page_no pars.length pars 1 st
          parseTableCells blockattr page_no cellsInRow rest
            (thisCell + 1) st

/-- The row loop of the Table branch (source lines 450–504): each row
emits a `TableRow` (the structurally last row flagged), then its cells. -/
def parseTableRows (blockattr : Attrs) (page_no : Nat)
    (rowsInTable : Nat) :
    List TRow → Nat → ParserState → Option PyErr × ParserState
  | [], _, st => (none, st)
  | r :: rest, thisRow, st =>
      let b : Block :=
        { btype := some "TableRow", styleAttrs := some blockattr,
          page_no := some page_no,
          lastTableElem := thisRow == rowsInTable }
      let st := { st with blocks := st.blocks ++ [b] }
      match parseTableCells blockattr page_no r.cells.length r.cells 1
          st with
      | (some e, st') => (some e, st')
      | (none, st') =>
          parseTableRows blockattr page_no rowsInTable rest
            (thisRow + 1) st'

/-- `AbbyyParser.parse_block`: stamp the page dimensions into the block's
attribute dict, then dispatch on `blockType`: Text (per-paragraph
flattening), Table (linearization), otherwise a generic entry which, for
Pictures, also updates the pics-by-page index. -/
def parse_block (rb : RawBlock) (st : ParserState) :
    Option PyErr × ParserState :=
  let blockattr :=
    dictInsert (dictInsert rb.attrib "pagewidth" st.pagewidth)
      "pageheight" st.pageheight
  if is_block_type blockattr "Text" then
    parsePars st.version st.page_no rb.pars st
  else if is_block_type blockattr "Table" then
    let b : Block :=
      { btype := some "Table", styleAttrs := some blockattr,
        page_no := some st.page_no }
    let st := { st with blocks := st.blocks ++ [b] }
    parseTableRows blockattr st.page_no rb.rows.length rb.rows 1 st
  else
    let d : Block :=
      { btype := dictLookup blockattr "blockType",
        styleAttrs := some blockattr, page_no := some st.page_no }
    let st := { st with blocks := st.blocks ++ [d] }
    if is_block_type blockattr "Picture" then
      match picsUpdate st.picsByPage st.page_no d with
      | (e, p) => (e, { st with picsByPage := p })
    else (none, st)

/-- The block loop of `process_pages`. -/
def processBlocks : List RawBlock → ParserState →
    Option PyErr × ParserState
  | [], st => (none, st)
  | rb :: rest, st =>
      match parse_block rb st with
      | (some e, st') => (some e, st')
      | (none, st') => processBlocks rest st'

/-- Truthiness of the object returned by `elem.iterchildren()`: an lxml
iterator defines neither `__bool__` nor `__len__`, so `bool(it)` is
always `True` and `not block_per_page` is always `False`. -/
def iterchildrenFalsy : Bool := false

/-- `AbbyyParser.process_pages` on one `<page>` element: store the page
dimensions, test `if not block_per_page` (see `iterchildrenFalsy`), set
`newpage`, parse every child block, run `add_last_text`, then — when page
support is on — read `self.blocks[-1]['type']` (IndexError on an empty
list, KeyError on a typeless block) and append a `'Page'` marker unless
one is already last, and finally advance the page counter. -/
def process_pages (pg : Page) (st : ParserState) :
    Option PyErr × ParserState :=
  let st := { st with pagewidth := pg.width, pageheight := pg.height }
  if iterchildrenFalsy then (none, { st with page_no := st.page_no + 1 })
  else
    let st := { st with newpage := true }
    match processBlocks pg.blocks st with
    | (some e, st') => (some e, st')
    | (none, st') =>
        let st' := { st' with
          blocks := add_last_text st'.blocks st'.page_no }
        if st'.pagesSupport then
          match st'.blocks.getLast? with
          | none => (some .indexError, st')
          | some lastB =>
              match lastB.btype with
              | none => (some .keyError, st')
              | some t =>
                  if t == "Page" then
                    (none, { st' with page_no := st'.page_no + 1 })
                  else
                    (none, { st' with
                      blocks := st'.blocks ++
                        [{ btype := some "Page",
                           textN := some st'.page_no }],
                      page_no := st'.page_no + 1 })
        else (none, { st' with page_no := st'.page_no + 1 })

/-- `Ebook.image_dim`: read the four bounding-box attributes out of the
block's `'style'` dict and convert them with `int()`.  Reading `'style'`
from a dict that lacks it raises KeyError; `int()` on a non-decimal
raises ValueError. -/
def image_dim (blk : Block) : Except PyErr (Int × Int × Int × Int) :=
  match blk.styleAttrs with
  | none => .error .keyError
  | some a => do
      let l ← match dictLookup a "l" with
        | some s => pyInt s
        | none => .error .keyError
      let t ← match dictLookup a "t" with
        | some s => pyInt s
        | none => .error .keyError
      let r ← match dictLookup a "r" with
        | some s => pyInt s
        | none => .error .keyError
      let b ← match dictLookup a "b" with
        | some s => pyInt s
        | none => .error .keyError
      return (l, t, r, b)

/-- One item produced by `for each_pic in self.metadata['pics_by_page']`:
iterating a dict yields its keys (page numbers); iterating a list yields
the block dicts it holds. -/
def picsIter (p : PicsVal) : List (Sum Nat Block) :=
  match p with
  | .dict m => m.map (fun kv => Sum.inl kv.1)
  | .list l => l.map Sum.inr

/-- `each_pic == block`: an int never equals a dict; two dicts compare by
content. -/
def itemEqBlock (it : Sum Nat Block) (b : Block) : Bool :=
  match it with
  | .inl _ => false
  | .inr b2 => b2 == b

/-- `image_dim(each_pic)`: calling it on an int (a dict key yielded by
iterating the dict) fails inside `int(block['style']['l'])` with a
TypeError; on a block dict it is the ordinary lookup. -/
def imageDimItem (it : Sum Nat Block) :
    Except PyErr (Int × Int × Int × Int) :=
  match it with
  | .inl _ => .error .typeError
  | .inr b => image_dim b

/-- `all(i >= j for i, j in zip(box, new_box))` (source line 400). -/
def boxAllGe (box newBox : Int × Int × Int × Int) : Bool :=
  decide (box.1 ≥ newBox.1) && decide (box.2.1 ≥ newBox.2.1) &&
  decide (box.2.2.1 ≥ newBox.2.2.1) && decide (box.2.2.2 ≥ newBox.2.2.2)

/-- The suppression loop of `Ebook.make_image` (source lines 395–401). -/
def suppressionLoop (box : Int × Int × Int × Int) (block : Block) :
    List (Sum Nat Block) → Except PyErr Bool
  | [] => .ok false
  | it :: rest =>
      if itemEqBlock it block then suppressionLoop box block rest
      else
        match imageDimItem it with
        | .error e => .error e
        | .ok nb =>
            if boxAllGe box nb then .ok true
            else suppressionLoop box block rest

/-- The overlap-suppression check of `Ebook.make_image` (source lines
383–401): compute the candidate's box, then scan
`metadata['pics_by_page']`; `ok true` means `make_image` returns early
(the picture is suppressed). -/
def suppressionCheck (block : Block) (pics : PicsVal) :
    Except PyErr Bool :=
  match image_dim block with
  | .error e => .error e
  | .ok box => suppressionLoop box block (picsIter pics)

/-- `utils.is_increasing`: `for a, b in zip(l, l[1:]): if a >= b: return
False` — true exactly on strictly increasing lists. -/
def is_increasing (l : List Int) : Bool :=
  (l.zip l.tail).all (fun ab => !decide (ab.1 ≥ ab.2))

/-- Longest-common-subsequence length with explicit fuel (the fuel
`a.length + b.length` always suffices; each step consumes at least one
character from one side). -/
def lcsFuel : Nat → List Char → List Char → Nat
  | 0, _, _ => 0
  | _ + 1, [], _ => 0
  | _ + 1, _, [] => 0
  | f + 1, x :: xs, y :: ys =>
      if x = y then lcsFuel f xs ys + 1
      else max (lcsFuel f (x :: xs) ys) (lcsFuel f xs (y :: ys))

/-- Longest-common-subsequence length of two character lists. -/
def lcsLen (a b : List Char) : Nat :=
  lcsFuel (a.length + b.length) a b

/-- `fuzz.ratio` (fuzzywuzzy, an external library): the similarity
`100·2M/T` rounded to an integer, with `M` the matched-character count
(common subsequence) and `T` the total length; 100 when both strings are
empty.  `⌊x + 1/2⌋` is computed as `(400M + T) / (2T)` in `Nat`; Python's
round-half-to-even differs only at exact halves, which the inputs
evaluated here never produce. -/
def fuzzRatio (a b : String) : Int :=
  let t := a.data.length + b.data.length
  if t = 0 then 100
  else ((400 * lcsLen a.data b.data + t) / (2 * t) : Nat)

/-- `^\d+$` searched from position 0: a non-empty all-digit string. -/
def digitsFullMatch (s : String) : Bool :=
  !s.data.isEmpty && s.data.all Char.isDigit

/-- A full match of the character class `[xicmlvd]+` (the `romans`
pattern, compiled without flags). -/
def romanShaped (s : String) : Bool :=
  !s.data.isEmpty &&
  s.data.all (fun c => ['x', 'i', 'c', 'm', 'l', 'v', 'd'].contains c)

/-- `re.search` of a `^`-anchored pattern with start position `pos`: the
anchor lets a match begin only at index 0, and `search(s, pos)` only
tries start indices ≥ `pos`, so a match exists iff `pos = 0` and the
anchored pattern matches. -/
def anchoredSearchFrom (matchesAt0 : Bool) (pos : Nat) : Bool :=
  decide (pos = 0) && matchesAt0

/-- `romans.search(line, re.IGNORECASE)` (source line 507):
`Pattern.search`'s second positional parameter is `pos`, so the
`re.IGNORECASE` flag (value 2) is passed as the start position. -/
def rpagenoSearch (line : String) : Bool :=
  anchoredSearchFrom (romanShaped line) 2

/-- `placement in block` for the placements the callers use (`'first'`
on source line 717, `'last'` on line 718): presence of the `'first'` /
`'last'` key on the block dict. -/
def blockHasKey (b : Block) (k : String) : Bool :=
  if k == "first" then b.first
  else if k == "last" then b.last
  else false

/-- The per-page entry of `self.firsts` / `self.lasts`: a dict holding
the designated line's text plus the optional classification and
similarity keys the detector adds. -/
structure LineInfo where
  text : String
  ocr_roman : Option String := none
  ocr_digits : Option String := none
  ratio_consecutive : Option Int := none
  ratio_alternating : Option Int := none
deriving DecidableEq, Repr

/-- `self.firsts` / `self.lasts`: page number → line entry, in insertion
order. -/
abbrev Lines := List (Nat × LineInfo)

/-- `mylines[ourpageno]['ocr_roman'] = placement`. -/
def setOcrRoman (ls : Lines) (k : Nat) (p : String) : Lines :=
  ls.map (fun kv =>
    if kv.1 == k then (kv.1, { kv.2 with ocr_roman := some p }) else kv)

/-- `mylines[ourpageno]['ocr_digits'] = placement`. -/
def setOcrDigits (ls : Lines) (k : Nat) (p : String) : Lines :=
  ls.map (fun kv =>
    if kv.1 == k then (kv.1, { kv.2 with ocr_digits := some p }) else kv)

/-- The detector state held on the `Ebook` object.  `headers_present`
starts as `False` (`none`); the `footers_present` attribute is *not*
initialised in `Ebook.__init__` and is only ever written, never read. -/
structure DetectState where
  firsts : Lines := []
  lasts : Lines := []
  pagenums_found : Bool := false
  rpagenums_found : Bool := false
  headers_present : Option String := none
  footers_present : Option String := none
deriving DecidableEq, Repr

/-- The local accumulator of the candidate scan: the shared lines dict,
`candidate_digits`, `candidate_romans`, and the loop-local `num` (which
starts unbound — `none`; reading it unbound raises NameError). -/
structure ScanAcc where
  lines : Lines
  cd : List Int
  cr : List Int
  num : Option Int
deriving DecidableEq, Repr

/-- A model of `numeral.roman2int` (external library): any decoder; an
`error` models a raised ValueError. -/
abbrev RomanDecoder := String → Except Unit Int

/-- One block of the candidate scan in
`identify_headers_footers_pagenos` (source lines 501–521): blocks with
the placement key contribute their text; a Roman-pattern hit would run
`roman2int` under `try/except ValueError: pass` and then *uncondition-
ally* tag the line and append `num` (NameError if still unbound); a
digit hit tags the line and appends `int(line)`. -/
def scanStep (r2i : RomanDecoder) (placement : String) (b : Block)
    (acc : ScanAcc) : Option PyErr × ScanAcc :=
  if blockHasKey b placement then
    match b.textS with
    | none => (some .keyError, acc)
    | some line =>
        match b.page_no with
        | none => (some .keyError, acc)
        | some pg =>
            let acc := { acc with
              lines := dictInsert acc.lines pg { text := line } }
            if rpagenoSearch line then
              let acc := { acc with
                num := match r2i line with
                  | .ok v => some v
                  | .error _ => acc.num }
              let acc := { acc with
                lines := setOcrRoman acc.lines pg placement }
              match acc.num with
              | none => (some .nameError, acc)
              | some v => (none, { acc with cr := acc.cr ++ [v] })
            else if digitsFullMatch line then
              let acc := { acc with
                lines := setOcrDigits acc.lines pg placement }
              match pyInt line with
              | .error e => (some e, acc)
              | .ok v => (none, { acc with cd := acc.cd ++ [v] })
            else (none, acc)
  else (none, acc)

/-- The block loop of the candidate scan. -/
def scanGo (r2i : RomanDecoder) (placement : String) :
    List Block → ScanAcc → Option PyErr × ScanAcc
  | [], acc => (none, acc)
  | b :: rest, acc =>
      match scanStep r2i placement b acc with
      | (some e, acc') => (some e, acc')
      | (none, acc') => scanGo r2i placement rest acc'

/-- The similarity pass (source lines 534–552): for every page with a
page one (two) ahead, record and accumulate the consecutive
(alternating) fuzz ratio.  Only `ratio_*` keys are written during the
iteration, so the `text` reads are unaffected. -/
def fuzzPass (ls : Lines) : Lines × Int × Int :=
  let ls2 := ls.map (fun kv =>
    let v := kv.2
    let v := match dictLookup ls (kv.1 + 1) with
      | some w =>
          { v with ratio_consecutive := some (fuzzRatio v.text w.text) }
      | none => v
    let v := match dictLookup ls (kv.1 + 2) with
      | some w =>
          { v with ratio_alternating := some (fuzzRatio v.text w.text) }
      | none => v
    (kv.1, v))
  let fc := ls.foldl (fun s kv =>
    match dictLookup ls (kv.1 + 1) with
    | some w => s + fuzzRatio kv.2.text w.text
    | none => s) 0
  let fa := ls.foldl (fun s kv =>
    match dictLookup ls (kv.1 + 2) with
    | some w => s + fuzzRatio kv.2.text w.text
    | none => s) 0
  (ls2, fc, fa)

/-- Modelled from the spec: the repository's `config.ini` (read through
`configparser` in `create_epub.py`) is packaged with the project but is
not among the sources under `src/`; it supplies the integers
`Main.HEADERS_PRESENT_THRESHOLD` and `Main.FUZZY_HEADER_THRESHOLD`.  The
spec fixes no numeric values; its fuzzy-footer scenario (§8: an average
of 100 classifies the pattern) constrains the presence threshold to lie
below 100.  Theorems take the two values as parameters under exactly
that constraint. -/
structure Config where
  HEADERS_PRESENT_THRESHOLD : Int
  FUZZY_HEADER_THRESHOLD : Int
deriving DecidableEq, Repr

/-- The classification step (source lines 556–585): with more than two
collected pages, compare the float averages of the consecutive and
alternating ratio sums against the presence threshold; on a hit, store
`'consecutive'`/`'alternating'` in `headers_present` for placement
`'first'` and in `footers_present` otherwise. -/
def classifyStep (placement : String) (n : Nat) (fc fa : Int)
    (threshold : Int) (st : DetectState) : DetectState :=
  if n > 2 then
    if (fc : ℚ) / ((n : ℚ) - 1) > (threshold : ℚ) then
      if placement == "first" then
        { st with headers_present := some "consecutive" }
      else { st with footers_present := some "consecutive" }
    else if (fa : ℚ) / ((n : ℚ) - 2) > (threshold : ℚ) then
      if placement == "first" then
        { st with headers_present := some "alternating" }
      else { st with footers_present := some "alternating" }
    else st
  else st

/-- The initial scan accumulator: `mylines` aliases `self.firsts` or
`self.lasts` by placement; the candidate lists start empty and `num`
starts unbound. -/
def scanInit (st : DetectState) (placement : String) : ScanAcc :=
  ⟨if placement == "first" then st.firsts else st.lasts, [], [], none⟩

/-- Store the (possibly partially updated) shared lines dict back under
its placement. -/
def writeLines (st : DetectState) (placement : String) (ls : Lines) :
    DetectState :=
  if placement == "first" then { st with firsts := ls }
  else { st with lasts := ls }

/-- The monotonicity gate of `identify_headers_footers_pagenos` (source
lines 526–531): `if candidate_digits and is_increasing(...)` sets the
digit flag (and likewise the Roman flag); a flag already set stays
set. -/
def identifyFlags (placement : String) (st : DetectState)
    (acc : ScanAcc) : DetectState :=
  { writeLines st placement acc.lines with
    pagenums_found := (writeLines st placement acc.lines).pagenums_found
      || (!acc.cd.isEmpty && is_increasing acc.cd),
    rpagenums_found :=
      (writeLines st placement acc.lines).rpagenums_found ||
      (!acc.cr.isEmpty && is_increasing acc.cr) }

/-- The tail of `identify_headers_footers_pagenos` after a scan that
raised nothing: the monotonicity gate, the similarity pass, and the
threshold classification. -/
def identifyRest (placement : String) (cfg : Config) (st : DetectState)
    (acc : ScanAcc) : DetectState :=
  classifyStep placement (fuzzPass acc.lines).1.length
    (fuzzPass acc.lines).2.1 (fuzzPass acc.lines).2.2
    cfg.HEADERS_PRESENT_THRESHOLD
    (writeLines (identifyFlags placement st acc) placement
      (fuzzPass acc.lines).1)

/-- `Ebook.identify_headers_footers_pagenos` (source lines 460–585):
candidate scan, monotonicity gate on the numbering candidates, the
similarity pass, and the threshold classification.  An exception raised
during the scan propagates, leaving the shared lines dict as mutated so
far and the flags untouched. -/
def identify_headers_footers_pagenos (blocks : List Block)
    (placement : String) (cfg : Config) (r2i : RomanDecoder)
    (st : DetectState) : Option PyErr × DetectState :=
  match scanGo r2i placement blocks (scanInit st placement) with
  | (some e, acc) => (some e, writeLines st placement acc.lines)
  | (none, acc) => (none, identifyRest placement cfg st acc)

/-- `Ebook.is_header_footer` (source lines 587–634): a block's line is a
header/footer/page number when its page registered a confirmed numbering
scheme for this placement, or when `headers_present` records a pattern
and the page's stored ratio for that pattern meets the fuzzy threshold.
Note every pattern test reads `headers_present`, for both placements. -/
def is_header_footer (st : DetectState) (cfg : Config) (b : Block)
    (placement : String) : Except PyErr Bool :=
  let mylines := if placement == "first" then st.firsts else st.lasts
  match b.page_no with
  | none => .error .keyError
  | some pg =>
      match dictLookup mylines pg with
      | none => .ok false
      | some info =>
          if st.rpagenums_found &&
              (info.ocr_roman == some placement) then .ok true
          else if st.pagenums_found &&
              (info.ocr_digits == some placement) then .ok true
          else if (st.headers_present == some "consecutive") &&
              (match info.ratio_consecutive with
               | some r => decide (r ≥ cfg.FUZZY_HEADER_THRESHOLD)
               | none => false) then .ok true
          else if (st.headers_present == some "alternating") &&
              (match info.ratio_alternating with
               | some r => decide (r ≥ cfg.FUZZY_HEADER_THRESHOLD)
               | none => false) then .ok true
          else .ok false

/-- Decidable well-formedness of a block list for the candidate scan: a
block carrying the placement key also carries its text and page
number (as every block `parse_block` marks does). -/
def scanWF (blocks : List Block) (placement : String) : Bool :=
  blocks.all (fun b =>
    !blockHasKey b placement || (b.textS.isSome && b.page_no.isSome))

/-- A paragraph style table with one resolved body-text style. -/
def bodyStyle : Paragraphs := [("s1", ⟨[("role", "text")], none⟩)]

/-- Parser state for the add-last-text scenario: FR10, page 1, one
resolved style. -/
def c2st : ParserState :=
  { version := "FR10", page_no := 1, paragraphs := bodyStyle }

/-- The single paragraph of the add-last-text scenario. -/
def c2pars : List Par := [⟨"s1", "Hello"⟩]

/-- The blocks the Text branch emits for that page. -/
def c2blocks : List Block := (parsePars "FR10" 1 c2pars c2st).2.blocks

/-- Styles-pass input for the font-style linking scenario: one
`paragraphStyle` with a `mainFontStyleId` back-reference and the matching
`fontStyle` child. -/
def c4elem : ParagraphStyleElem :=
  ⟨"p1", [("mainFontStyleId", "f1")], [⟨"f1", [("fs", "12")]⟩]⟩

/-- Bounding-box attributes of picture A (0,0,100,100). -/
def c5attrsA : Attrs :=
  [("blockType", "Picture"), ("l", "0"), ("t", "0"),
   ("r", "100"), ("b", "100")]

/-- Bounding-box attributes of picture B (10,10,50,50), contained in A. -/
def c5attrsB : Attrs :=
  [("blockType", "Picture"), ("l", "10"), ("t", "10"),
   ("r", "50"), ("b", "50")]

/-- Picture A with a distinguishing attribute, box (0,0,100,100). -/
def c5attrsA2 : Attrs := c5attrsA ++ [("name", "A")]

/-- A distinct picture C with a box identical to A's. -/
def c5attrsC : Attrs := c5attrsA ++ [("name", "C")]

/-- Parser state before the pictures of page 1 are flattened. -/
def c5st0 : ParserState :=
  { version := "FR10", page_no := 1, pagewidth := "1000",
    pageheight := "2000" }

/-- State after flattening picture A. -/
def c5stA : ParserState := (parse_block ⟨c5attrsA, [], []⟩ c5st0).2

/-- State after flattening pictures A then B (same page). -/
def c5stAB : ParserState := (parse_block ⟨c5attrsB, [], []⟩ c5stA).2

/-- State after flattening picture A2. -/
def c5stA2 : ParserState := (parse_block ⟨c5attrsA2, [], []⟩ c5st0).2

/-- State after flattening pictures A2 then C (same page). -/
def c5stAC : ParserState := (parse_block ⟨c5attrsC, [], []⟩ c5stA2).2

/-- The content-block dict `parse_block` builds for a non-text block:
the raw attributes with the page dimensions stamped in. -/
def mkPicBlock (attrs : Attrs) (pw ph : String) (n : Nat) : Block :=
  { btype := dictLookup (dictInsert (dictInsert attrs "pagewidth" pw)
      "pageheight" ph) "blockType",
    styleAttrs := some (dictInsert (dictInsert attrs "pagewidth" pw)
      "pageheight" ph),
    page_no := some n }

/-- Picture A's flattened block. -/
def c5dA : Block := mkPicBlock c5attrsA "1000" "2000" 1

/-- Picture B's flattened block. -/
def c5dB : Block := mkPicBlock c5attrsB "1000" "2000" 1

/-- Picture A2's flattened block. -/
def c5dA2 : Block := mkPicBlock c5attrsA2 "1000" "2000" 1

/-- Picture C's flattened block. -/
def c5dC : Block := mkPicBlock c5attrsC "1000" "2000" 1

/-- State after flattening picture A on page 1 (pics-index scenario). -/
def c6st1 : ParserState := (parse_block ⟨c5attrsA, [], []⟩ c5st0).2

/-- State after then flattening picture B on page 2. -/
def c6st2 : ParserState :=
  (parse_block ⟨c5attrsB, [], []⟩ { c6st1 with page_no := 2 }).2

/-- Picture B's flattened block on page 2. -/
def c6dB2 : Block := mkPicBlock c5attrsB "1000" "2000" 2

/-- The very first page (counter 0) of the skip-first-page scenario,
holding one ordinary text block. -/
def c7page : Page :=
  ⟨"100", "200", [⟨[("blockType", "Text")], [⟨"s1", "Hello"⟩], []⟩]⟩

/-- Fresh parser state at the start of the page pass (page counter 0). -/
def c7st : ParserState := { version := "FR10", paragraphs := bodyStyle }

/-- A Text block whose paragraph references a style id that was never
collected. -/
def c8rb : RawBlock := ⟨[("blockType", "Text")], [⟨"missing", "Hello"⟩], []⟩

/-- FR10 parser state with an empty style table. -/
def c8stFR10 : ParserState := { version := "FR10", page_no := 3 }

/-- FR6 parser state with an empty style table. -/
def c8stFR6 : ParserState := { version := "FR6", page_no := 3 }

/-- One page's designated last-line block carrying the literal footer
`"Chapter Three"`. -/
def chapterBlock (i : Nat) : Block :=
  { btype := some "Text", page_no := some i,
    textS := some "Chapter Three", last := true }

/-- Five pages whose designated last line is `"Chapter Three"`. -/
def c3blocks : List Block :=
  [chapterBlock 1, chapterBlock 2, chapterBlock 3, chapterBlock 4,
   chapterBlock 5]

/-- The lines dict the candidate scan collects for `c3blocks`. -/
def c3lines : Lines :=
  [(1, { text := "Chapter Three" }), (2, { text := "Chapter Three" }),
   (3, { text := "Chapter Three" }), (4, { text := "Chapter Three" }),
   (5, { text := "Chapter Three" })]

/-- The lines dict after the similarity pass over `c3lines`. -/
def c3lines2 : Lines :=
  [(1, { text := "Chapter Three", ratio_consecutive := some 100,
         ratio_alternating := some 100 }),
   (2, { text := "Chapter Three", ratio_consecutive := some 100,
         ratio_alternating := some 100 }),
   (3, { text := "Chapter Three", ratio_consecutive := some 100,
         ratio_alternating := some 100 }),
   (4, { text := "Chapter Three", ratio_consecutive := some 100 }),
   (5, { text := "Chapter Three" })]

/-- A Roman decoder that always raises ValueError (test double for the
external `numeral.roman2int`). -/
def r2iFail : RomanDecoder := fun _ => Except.error ()

/-- One designated last line shaped like a Roman numeral (`"mxm"`),
first (and only) candidate of its scan. -/
def c9blocks : List Block :=
  [{ btype := some "Text", page_no := some 3, textS := some "mxm",
     last := true }]

/-- Two pages whose designated last lines are the increasing bare digit
runs `"3"` and `"5"`. -/
def c10blocks : List Block :=
  [{ btype := some "Text", page_no := some 1, textS := some "3",
     last := true },
   { btype := some "Text", page_no := some 2, textS := some "5",
     last := true }]

/-- A concrete configuration (both thresholds 80, below 100 as the
spec's scenarios require). -/
def cfg80 : Config := ⟨80, 80⟩

/-- A document whose first element declares the FR10 namespace. -/
def c1doc : AbbyyDoc := ⟨[ABBYY_NS], [], []⟩

/-- C1: for every document whose first element declares one of the two
supported ABBYY namespaces, `parse_abbyy` raises AttributeError directly
after `find_namespace` succeeds — the class defines `decompose_xml` but
no `process_styles`, so evaluating `self.process_styles` fails before any
style or page is collected and the shared blocks list gains no
elements. -/
theorem c1_parse_abbyy_attribute_error (doc : AbbyyDoc)
    (st : ParserState)
    (h : ABBYY_NS ∈ doc.nsvals ∨ OLD_NS ∈ doc.nsvals) :
    (parse_abbyy doc st).1 = some PyErr.attributeError ∧
    (parse_abbyy doc st).2.blocks = st.blocks ∧
    (parse_abbyy doc st).2.paragraphs = st.paragraphs ∧
    (parse_abbyy doc st).2.fontStyles = [] ∧
    "process_styles" ∉ abbyyParserMethods ∧
    "decompose_xml" ∈ abbyyParserMethods := by
  have hok : ∃ p, find_namespace doc.nsvals = Except.ok p := by
    unfold find_namespace
    by_cases h1 : ABBYY_NS ∈ doc.nsvals
    · rw [if_pos h1]; exact ⟨_, rfl⟩
    · rcases h with h2 | h2
      · exact absurd h2 h1
      · rw [if_neg h1, if_pos h2]; exact ⟨_, rfl⟩
  obtain ⟨⟨ns, ver⟩, hfn⟩ := hok
  unfold parse_abbyy
  rw [hfn]
  exact ⟨rfl, rfl, rfl, rfl, by decide, by decide⟩

/-- Witness for C1 at a concrete FR10 document and fresh state. -/
theorem c1_parse_abbyy_attribute_error_witness :
    (ABBYY_NS ∈ c1doc.nsvals ∨ OLD_NS ∈ c1doc.nsvals) ∧
    ((parse_abbyy c1doc {}).1 = some PyErr.attributeError ∧
     (parse_abbyy c1doc {}).2.blocks = ({} : ParserState).blocks ∧
     (parse_abbyy c1doc {}).2.paragraphs =
       ({} : ParserState).paragraphs ∧
     (parse_abbyy c1doc {}).2.fontStyles = [] ∧
     "process_styles" ∉ abbyyParserMethods ∧
     "decompose_xml" ∈ abbyyParserMethods) :=
  ⟨Or.inl (by simp [c1doc]),
   c1_parse_abbyy_attribute_error c1doc {} (Or.inl (by simp [c1doc]))⟩

/-- C2: the claim says a page ending in one or more Text blocks always
gets exactly one block marked last.  The Text branch emits blocks typed
`'Text'`, but `add_last_text` only marks a block whose type equals the
lowercase string `'text'`, so the flattened page below — ending in a Text
block of its own page — gets no block marked at all; the lowercase-typed
variant of the same block would be marked. -/
theorem c2_add_last_text_never_marks :
    (parsePars "FR10" 1 c2pars c2st).1 = none ∧
    (c2blocks.map fun b => b.btype) = [some "Text"] ∧
    (c2blocks.map fun b => b.page_no) = [some 1] ∧
    add_last_text c2blocks 1 = c2blocks ∧
    (c2blocks.all fun b => !b.last) = true ∧
    add_last_text [{ c2blocks.headI with btype := some "text" }] 1 =
      [{ c2blocks.headI with btype := some "text", last := true }] := by
  exact ⟨rfl, rfl, rfl, rfl, rfl, rfl⟩

/-- C4: the style-collation loop of `parse_abbyy` tests and indexes
`self.fontStyles` with the literal key `'mainFontStyleId'` instead of the
paragraph style's `mainFontStyleId` value, so after collecting a
paragraph style referencing font style `f1` (collected in the same pass),
the resolved record still embeds no font style — the claim's linking
never happens. -/
theorem c4_fontstyle_never_linked :
    dictLookup (collate_styles (decompose_xml c4elem {})).paragraphs
      "p1" = some ⟨[("mainFontStyleId", "f1")], none⟩ ∧
    dictLookup (collate_styles (decompose_xml c4elem {})).fontStyles
      "f1" = some [("fs", "12")] ∧
    containsKey (decompose_xml c4elem ({} : ParserState)).fontStyles
      "mainFontStyleId" = false := by
  exact ⟨rfl, rfl, rfl⟩

/-- C6: `parse_block`'s picture branch replaces
`metadata['pics_by_page']` with the bare one-element list `[d]` (its
membership test compares the page number against block dicts, never the
keys of a page index), so after pictures on pages 1 and 2 both flattened
blocks are in the output but the index holds only the most recent one —
the first picture is not reachable under any page number. -/
theorem c6_pics_by_page_degenerates :
    (parse_block ⟨c5attrsA, [], []⟩ c5st0).1 = none ∧
    (parse_block ⟨c5attrsB, [], []⟩ { c6st1 with page_no := 2 }).1 =
      none ∧
    c6st1.picsByPage = PicsVal.list [c5dA] ∧
    c6st2.blocks = [c5dA, c6dB2] ∧
    c6st2.picsByPage = PicsVal.list [c6dB2] ∧
    (picsAllBlocks c6st2.picsByPage).contains c5dA = false := by
  exact ⟨rfl, rfl, by decide, by decide, by decide, by decide⟩

/-- C7: the page pass does not skip the very first page: the only early
return is guarded by `if not block_per_page`, whose condition tests the
truthiness of an iterator and is therefore never true, so a first page
(counter 0) holding a text block gets that block appended with page
number 0. -/
theorem c7_first_page_not_skipped :
    (process_pages c7page c7st).1 = none ∧
    ((process_pages c7page c7st).2.blocks.any fun b =>
      b.page_no == some 0 && b.btype == some "Text") = true ∧
    (process_pages c7page c7st).2.page_no = 1 := by
  exact ⟨rfl, by decide, rfl⟩

/-- C8: for a paragraph whose style id resolves to no collected style,
`parse_block` does substitute an empty record — but in the FR10 dialect
it then evaluates `self.paragraphs[para_id]['role']` on that empty
record, raising KeyError; only the FR6 path continues without raising. -/
theorem c8_unresolved_style_keyerror_fr10 :
    (parse_block c8rb c8stFR10).1 = some PyErr.keyError ∧
    containsKey (parse_block c8rb c8stFR10).2.paragraphs "missing" =
      true ∧
    dictLookup (parse_block c8rb c8stFR10).2.paragraphs "missing" =
      some ⟨[], none⟩ ∧
    (parse_block c8rb c8stFR10).2.blocks = [] ∧
    (parse_block c8rb c8stFR6).1 = none ∧
    (parse_block c8rb c8stFR6).2.blocks.length = 1 := by
  exact ⟨rfl, by decide, by decide, rfl, rfl, rfl⟩

/-- C5: with pictures A=(0,0,100,100) and B=(10,10,50,50) flattened on
the same page, the overlap check suppresses neither — the claim expects B
suppressed: the comparison `all(i >= j ...)` demands B's right/bottom
edges to be at least A's, and the scanned collection holds only the most
recent picture anyway.  For the two distinct pictures A2 and C with
identical boxes the claim expects neither suppressed, yet A2 *is*
suppressed (its box is componentwise ≥ C's). -/
theorem c5_contained_picture_not_suppressed :
    c5stAB.blocks = [c5dA, c5dB] ∧
    c5stAB.picsByPage = PicsVal.list [c5dB] ∧
    suppressionCheck c5dB c5stAB.picsByPage = Except.ok false ∧
    suppressionCheck c5dA c5stAB.picsByPage = Except.ok false ∧
    c5stAC.picsByPage = PicsVal.list [c5dC] ∧
    c5dA2 ≠ c5dC ∧
    image_dim c5dA2 = Except.ok (0, 0, 100, 100) ∧
    image_dim c5dC = Except.ok (0, 0, 100, 100) ∧
    suppressionCheck c5dA2 c5stAC.picsByPage = Except.ok true := by
  exact ⟨by decide, by decide, rfl, rfl, by decide, by decide, rfl, rfl,
    rfl⟩

theorem rpagenoSearch_eq_false (s : String) : rpagenoSearch s = false := by
  simp [rpagenoSearch, anchoredSearchFrom]

theorem parseNatDigitsAux_isSome (cs : List Char) :
    ∀ acc : Nat, cs.all Char.isDigit = true →
      (parseNatDigitsAux cs acc).isSome = true := by
  induction cs with
  | nil => intro acc _; rfl
  | cons c cs2 ih =>
      intro acc h
      rw [List.all_cons, Bool.and_eq_true] at h
      simp only [parseNatDigitsAux, h.1, if_true]
      exact ih _ h.2

theorem pyInt_isOk_of_digits (s : String)
    (h : digitsFullMatch s = true) : ∃ v, pyInt s = Except.ok v := by
  obtain ⟨l⟩ := s
  rw [digitsFullMatch, Bool.and_eq_true] at h
  obtain ⟨hne, hall⟩ := h
  cases l with
  | nil => simp at hne
  | cons c cs =>
      have hc : c.isDigit = true := by
        rw [List.all_cons, Bool.and_eq_true] at hall
        exact hall.1
      have hcm : ¬ (c = '-') := by
        intro he
        rw [he] at hc
        exact absurd hc (by decide)
      have hs : (parseNatDigitsAux (c :: cs) 0).isSome = true :=
        parseNatDigitsAux_isSome (c :: cs) 0 hall
      cases hp : parseNatDigitsAux (c :: cs) 0 with
      | none => rw [hp] at hs; simp at hs
      | some n =>
          refine ⟨(n : Int), ?_⟩
          simp only [pyInt, if_neg hcm, parseNatDigits, hp]

theorem scanGo_scan_safe (r2i : RomanDecoder) (placement : String) :
    ∀ (blocks : List Block) (ls : Lines) (cd : List Int),
      scanWF blocks placement = true →
      (scanGo r2i placement blocks ⟨ls, cd, [], none⟩).1 = none ∧
      ((scanGo r2i placement blocks ⟨ls, cd, [], none⟩).2).cr = [] ∧
      ((scanGo r2i placement blocks ⟨ls, cd, [], none⟩).2).num =
        none := by
  intro blocks
  induction blocks with
  | nil => intro ls cd _; exact ⟨rfl, rfl, rfl⟩
  | cons b rest ih =>
      intro ls cd h
      rw [scanWF, List.all_cons, Bool.and_eq_true] at h
      obtain ⟨hb, hrest⟩ := h
      rw [show rest.all (fun b => !blockHasKey b placement ||
        (b.textS.isSome && b.page_no.isSome)) = scanWF rest placement
        from rfl] at hrest
      by_cases hk : blockHasKey b placement = true
      · rw [hk] at hb
        simp only [Bool.not_true, Bool.false_or,
          Bool.and_eq_true] at hb
        obtain ⟨line, hline⟩ := Option.isSome_iff_exists.mp hb.1
        obtain ⟨pg, hpg⟩ := Option.isSome_iff_exists.mp hb.2
        by_cases hd : digitsFullMatch line = true
        · obtain ⟨v, hv⟩ := pyInt_isOk_of_digits line hd
          have hstep : scanStep r2i placement b ⟨ls, cd, [], none⟩ =
              (none, ⟨setOcrDigits
                  (dictInsert ls pg ⟨line, none, none, none, none⟩) pg
                  placement, cd ++ [v], [], none⟩) := by
            simp [scanStep, hk, hline, hpg, rpagenoSearch_eq_false,
              hd, hv]
          simp only [scanGo, hstep]
          exact ih _ _ hrest
        · have hstep : scanStep r2i placement b ⟨ls, cd, [], none⟩ =
              (none, ⟨dictInsert ls pg ⟨line, none, none, none, none⟩,
                cd, [], none⟩) := by
            simp [scanStep, hk, hline, hpg, rpagenoSearch_eq_false, hd]
          simp only [scanGo, hstep]
          exact ih _ _ hrest
      · have hstep : scanStep r2i placement b ⟨ls, cd, [], none⟩ =
            (none, ⟨ls, cd, [], none⟩) := by
          simp [scanStep, hk]
        simp only [scanGo, hstep]
        exact ih _ _ hrest

/-- C9: during the header/footer candidate scan, Roman-decode failures
are harmless: the scan raises nothing and the Roman candidate list stays
empty — for *any* decoder behaviour, hence in particular for every line
matching the Roman character pattern whose decode raises ValueError
(even the first one encountered).  This holds because
`romans.search(line, re.IGNORECASE)` passes the flag as the start
position (`rpagenoSearch` is constantly false), so no candidate is ever
appended and the scan continues over the remaining blocks. -/
theorem c9_roman_decode_failure_harmless (r2i : RomanDecoder)
    (placement : String) (blocks : List Block) (st : DetectState)
    (cfg : Config)
    (hp : placement = "first" ∨ placement = "last")
    (h : scanWF blocks placement = true) :
    (scanGo r2i placement blocks (scanInit st placement)).1 = none ∧
    ((scanGo r2i placement blocks (scanInit st placement)).2).cr =
      [] ∧
    (identify_headers_footers_pagenos blocks placement cfg r2i st).1 =
      none := by
  have key := scanGo_scan_safe r2i placement blocks
    (if placement == "first" then st.firsts else st.lasts) [] h
  refine ⟨key.1, key.2.1, ?_⟩
  unfold identify_headers_footers_pagenos
  rcases hsg : scanGo r2i placement blocks (scanInit st placement)
    with ⟨e, acc⟩
  have h1 : e = none := by
    have := key.1
    rw [show (⟨if placement == "first" then st.firsts else st.lasts,
      [], [], none⟩ : ScanAcc) = scanInit st placement from rfl] at this
    rw [hsg] at this
    exact this
  subst h1
  rfl

/-- Witness for C9: a scan whose first (and only) Roman-shaped line
`"mxm"` fails to decode, at placement `'last'`. -/
theorem c9_roman_decode_failure_harmless_witness :
    romanShaped "mxm" = true ∧
    r2iFail "mxm" = Except.error () ∧
    ("last" = "first" ∨ "last" = "last") ∧
    scanWF c9blocks "last" = true ∧
    ((scanGo r2iFail "last" c9blocks (scanInit {} "last")).1 = none ∧
     ((scanGo r2iFail "last" c9blocks (scanInit {} "last")).2).cr =
       [] ∧
     (identify_headers_footers_pagenos c9blocks "last" cfg80 r2iFail
       {}).1 = none) :=
  ⟨by decide, rfl, Or.inr rfl, by decide,
   c9_roman_decode_failure_harmless r2iFail "last" c9blocks {} cfg80
     (Or.inr rfl) (by decide)⟩

theorem is_increasing_iff (l : List Int) :
    is_increasing l = true ↔ List.Chain' (· < ·) l := by
  induction l with
  | nil => simp [is_increasing]
  | cons a t ih =>
      cases t with
      | nil => simp [is_increasing]
      | cons b t2 =>
          have hstep : is_increasing (a :: b :: t2) =
              (!decide (a ≥ b) && is_increasing (b :: t2)) := rfl
          rw [hstep, List.chain'_cons, ← ih]
          simp [not_le]

theorem classifyStep_preserves_flags (placement : String) (n : Nat)
    (fc fa T : Int) (st : DetectState) :
    (classifyStep placement n fc fa T st).pagenums_found =
      st.pagenums_found ∧
    (classifyStep placement n fc fa T st).rpagenums_found =
      st.rpagenums_found := by
  unfold classifyStep
  split
  · split
    · split <;> exact ⟨rfl, rfl⟩
    · split
      · split <;> exact ⟨rfl, rfl⟩
      · exact ⟨rfl, rfl⟩
  · exact ⟨rfl, rfl⟩

theorem writeLines_preserves_flags (st : DetectState) (p : String)
    (ls : Lines) :
    (writeLines st p ls).pagenums_found = st.pagenums_found ∧
    (writeLines st p ls).rpagenums_found = st.rpagenums_found := by
  unfold writeLines
  split <;> exact ⟨rfl, rfl⟩

theorem identifyRest_pagenums (placement : String) (cfg : Config)
    (st : DetectState) (acc : ScanAcc) :
    (identifyRest placement cfg st acc).pagenums_found =
      (st.pagenums_found ||
        (!acc.cd.isEmpty && is_increasing acc.cd)) := by
  unfold identifyRest
  rw [(classifyStep_preserves_flags _ _ _ _ _ _).1,
    (writeLines_preserves_flags _ _ _).1]
  show ((writeLines st placement acc.lines).pagenums_found || _) = _
  rw [(writeLines_preserves_flags st placement acc.lines).1]

theorem identifyRest_rpagenums (placement : String) (cfg : Config)
    (st : DetectState) (acc : ScanAcc) :
    (identifyRest placement cfg st acc).rpagenums_found =
      (st.rpagenums_found ||
        (!acc.cr.isEmpty && is_increasing acc.cr)) := by
  unfold identifyRest
  rw [(classifyStep_preserves_flags _ _ _ _ _ _).2,
    (writeLines_preserves_flags _ _ _).2]
  show ((writeLines st placement acc.lines).rpagenums_found || _) = _
  rw [(writeLines_preserves_flags st placement acc.lines).2]

theorem identify_digit_guard (blocks : List Block) (placement : String)
    (cfg : Config) (r2i : RomanDecoder) (st : DetectState)
    (h0 : st.pagenums_found = false)
    (h1 : (identify_headers_footers_pagenos blocks placement cfg r2i
      st).2.pagenums_found = true) :
    (scanGo r2i placement blocks (scanInit st placement)).2.cd ≠ [] ∧
    is_increasing
      ((scanGo r2i placement blocks (scanInit st placement)).2.cd) =
      true := by
  unfold identify_headers_footers_pagenos at h1
  rcases hsg : scanGo r2i placement blocks (scanInit st placement)
    with ⟨e, acc⟩
  rw [hsg] at h1
  cases e with
  | some e0 =>
      have h2 : (writeLines st placement acc.lines).pagenums_found =
          true := h1
      rw [(writeLines_preserves_flags st placement acc.lines).1, h0]
        at h2
      exact absurd h2 (by simp)
  | none =>
      have h2 : (identifyRest placement cfg st acc).pagenums_found =
          true := h1
      rw [identifyRest_pagenums, h0, Bool.false_or,
        Bool.and_eq_true] at h2
      obtain ⟨h3, h4⟩ := h2
      refine ⟨fun hnil => ?_, h4⟩
      rw [show (((none : Option PyErr), acc).2).cd = acc.cd from rfl]
        at hnil
      rw [hnil] at h3
      simp at h3

theorem identify_roman_guard (blocks : List Block) (placement : String)
    (cfg : Config) (r2i : RomanDecoder) (st : DetectState)
    (h0 : st.rpagenums_found = false)
    (h1 : (identify_headers_footers_pagenos blocks placement cfg r2i
      st).2.rpagenums_found = true) :
    (scanGo r2i placement blocks (scanInit st placement)).2.cr ≠ [] ∧
    is_increasing
      ((scanGo r2i placement blocks (scanInit st placement)).2.cr) =
      true := by
  unfold identify_headers_footers_pagenos at h1
  rcases hsg : scanGo r2i placement blocks (scanInit st placement)
    with ⟨e, acc⟩
  rw [hsg] at h1
  cases e with
  | some e0 =>
      have h2 : (writeLines st placement acc.lines).rpagenums_found =
          true := h1
      rw [(writeLines_preserves_flags st placement acc.lines).2, h0]
        at h2
      exact absurd h2 (by simp)
  | none =>
      have h2 : (identifyRest placement cfg st acc).rpagenums_found =
          true := h1
      rw [identifyRest_rpagenums, h0, Bool.false_or,
        Bool.and_eq_true] at h2
      obtain ⟨h3, h4⟩ := h2
      refine ⟨fun hnil => ?_, h4⟩
      rw [show (((none : Option PyErr), acc).2).cr = acc.cr from rfl]
        at hnil
      rw [hnil] at h3
      simp at h3

/-- C10: `is_increasing` decides strict monotonicity (with the spec's
sample values, and trivially true on empty and singleton lists), and a
digit (or Roman) numbering scheme comes out confirmed from
`identify_headers_footers_pagenos` only when the scan's decoded
candidate list is non-empty and `is_increasing` holds of it. -/
theorem c10_is_increasing_confirmation :
    (∀ l : List Int, is_increasing l = true ↔ List.Chain' (· < ·) l) ∧
    is_increasing [3, 5, 5, 9] = false ∧
    is_increasing [3, 5, 7, 9] = true ∧
    is_increasing [] = true ∧
    (∀ x : Int, is_increasing [x] = true) ∧
    (∀ (blocks : List Block) (placement : String) (cfg : Config)
      (r2i : RomanDecoder) (st : DetectState),
      st.pagenums_found = false →
      (identify_headers_footers_pagenos blocks placement cfg r2i
        st).2.pagenums_found = true →
      (scanGo r2i placement blocks (scanInit st placement)).2.cd ≠
        [] ∧
      is_increasing
        ((scanGo r2i placement blocks (scanInit st placement)).2.cd) =
        true) ∧
    (∀ (blocks : List Block) (placement : String) (cfg : Config)
      (r2i : RomanDecoder) (st : DetectState),
      st.rpagenums_found = false →
      (identify_headers_footers_pagenos blocks placement cfg r2i
        st).2.rpagenums_found = true →
      (scanGo r2i placement blocks (scanInit st placement)).2.cr ≠
        [] ∧
      is_increasing
        ((scanGo r2i placement blocks (scanInit st placement)).2.cr) =
        true) :=
  ⟨is_increasing_iff, by decide, by decide, by decide,
   fun x => rfl, identify_digit_guard, identify_roman_guard⟩

/-- Witness for C10: the digit-confirmation guard applied at a concrete
two-page scan with increasing bare digit lines `"3"`, `"5"`. -/
theorem c10_is_increasing_confirmation_witness :
    (({} : DetectState).pagenums_found = false) ∧
    ((identify_headers_footers_pagenos c10blocks "last" cfg80 r2iFail
      {}).2.pagenums_found = true) ∧
    ((scanGo r2iFail "last" c10blocks (scanInit {} "last")).2.cd ≠
      [] ∧
     is_increasing
       ((scanGo r2iFail "last" c10blocks
         (scanInit {} "last")).2.cd) = true) :=
  ⟨rfl, by decide,
   c10_is_increasing_confirmation.2.2.2.2.2.1 c10blocks "last" cfg80
     r2iFail {} rfl (by decide)⟩

/-- C3: on 5 pages whose designated last line is `"Chapter Three"`, the
detector's consecutive-pair average similarity is 100 (each stored ratio
is 100) and the footer pattern is classified `'consecutive'` — but the
classification is stored in `footers_present`, which `is_header_footer`
never consults (it reads `headers_present`, still `False`), so
`is_header_footer(block, 'last')` afterwards returns False for every one
of the 5 designated blocks, not True as claimed. -/
theorem c3_fuzzy_footer_not_suppressed (cfg : Config)
    (r2i : RomanDecoder)
    (hT : cfg.HEADERS_PRESENT_THRESHOLD < 100) :
    (identify_headers_footers_pagenos c3blocks "last" cfg r2i {}).1 =
      none ∧
    (identify_headers_footers_pagenos c3blocks "last" cfg r2i {}).2 =
      { lasts := c3lines2, footers_present := some "consecutive" } ∧
    (∀ b ∈ c3blocks,
      is_header_footer
        (identify_headers_footers_pagenos c3blocks "last" cfg r2i
          {}).2 cfg b "last" = Except.ok false) := by
  have hq : ((400 : Int) : ℚ) / (((5 : Nat) : ℚ) - 1) >
      ((cfg.HEADERS_PRESENT_THRESHOLD : ℚ)) := by
    have h100 : ((cfg.HEADERS_PRESENT_THRESHOLD : ℚ)) < 100 := by
      exact_mod_cast hT
    have h400 : ((400 : Int) : ℚ) / (((5 : Nat) : ℚ) - 1) = 100 := by
      norm_num
    rw [h400]
    exact h100
  have hcls : classifyStep "last" 5 400 300
      cfg.HEADERS_PRESENT_THRESHOLD { lasts := c3lines2 } =
      { lasts := c3lines2, footers_present := some "consecutive" } := by
    unfold classifyStep
    rw [if_pos (show (5 : Nat) > 2 by norm_num), if_pos hq]
    rfl
  have hrest : identifyRest "last" cfg {} ⟨c3lines, [], [], none⟩ =
      { lasts := c3lines2, footers_present := some "consecutive" } := by
    have hbase : identifyRest "last" cfg {} ⟨c3lines, [], [], none⟩ =
        classifyStep "last" 5 400 300 cfg.HEADERS_PRESENT_THRESHOLD
          { lasts := c3lines2 } := rfl
    rw [hbase, hcls]
  have hid : identify_headers_footers_pagenos c3blocks "last" cfg r2i
      {} = (none,
        { lasts := c3lines2, footers_present := some "consecutive" })
      := by
    unfold identify_headers_footers_pagenos
    rw [show scanGo r2i "last" c3blocks (scanInit {} "last") =
      ((none : Option PyErr), (⟨c3lines, [], [], none⟩ : ScanAcc))
      from rfl]
    show ((none : Option PyErr),
      identifyRest "last" cfg {} ⟨c3lines, [], [], none⟩) = _
    rw [hrest]
  refine ⟨by rw [hid], by rw [hid], ?_⟩
  intro b hb
  rw [hid]
  rw [show c3blocks = [chapterBlock 1, chapterBlock 2, chapterBlock 3,
    chapterBlock 4, chapterBlock 5] from rfl] at hb
  fin_cases hb <;> rfl

/-- Witness for C3 at the concrete thresholds 80/80. -/
theorem c3_fuzzy_footer_not_suppressed_witness :
    ((cfg80.HEADERS_PRESENT_THRESHOLD < 100) ∧
     (identify_headers_footers_pagenos c3blocks "last" cfg80 r2iFail
       {}).1 = none ∧
     (identify_headers_footers_pagenos c3blocks "last" cfg80 r2iFail
       {}).2 =
       { lasts := c3lines2, footers_present := some "consecutive" } ∧
     (∀ b ∈ c3blocks,
       is_header_footer
         (identify_headers_footers_pagenos c3blocks "last" cfg80
           r2iFail {}).2 cfg80 b "last" = Except.ok false)) :=
  ⟨by decide,
   c3_fuzzy_footer_not_suppressed cfg80 r2iFail (by decide)⟩

end AbbyyToEpub3
